import Mathlib

/-!
Verification of the ISPASS_Results metric-extraction scripts.

The Python sources are shallowly embedded below.  Strings are Lean `String`s,
but every string operation used by the scripts (`split`, `strip`, `lower`,
`replace`, substring tests, `int()`/`float()` conversion) is re-implemented
here by structural recursion over `String.data`, so that every definition is
executable by the kernel.  Machine floats are modelled by exact rationals
(`ℚ`); the inputs involved are small decimal literals that floats represent
exactly, and the guarded-division policies under scrutiny are value-exact.
Python dictionaries are modelled as insertion-ordered association lists.
-/

namespace ISPASS

/-! ### String primitives (models of the Python `str` methods used) -/

/-- Whitespace recognised by Python `str.strip()` (the subset that occurs). -/
def wsChar (c : Char) : Bool :=
  c == ' ' || c == '\t' || c == '\n' || c == '\r'

/-- Model of Python `str.strip()`. -/
def trimS (s : String) : String :=
  ⟨((s.data.dropWhile wsChar).reverse.dropWhile wsChar).reverse⟩

/-- Fuel-driven splitter over character lists; `fuel` bounds the scan length. -/
def splitOnAuxL (sep : List Char) : Nat → List Char → List Char → List (List Char)
  | 0, s, cur => [cur.reverse ++ s]
  | fuel + 1, s, cur =>
    match s with
    | [] => [cur.reverse]
    | c :: rest =>
        if sep.isPrefixOf s then
          cur.reverse :: splitOnAuxL sep fuel (s.drop sep.length) []
        else
          splitOnAuxL sep fuel rest (c :: cur)

/-- Model of Python `str.split(sep)` for a non-empty separator. -/
def splitOnS (s sep : String) : List String :=
  (splitOnAuxL sep.data (s.data.length + 1) s.data []).map (fun l => ⟨l⟩)

/-- Model of Python `str.replace(pat, rep)` (all non-overlapping occurrences). -/
def replaceS (s pat rep : String) : String :=
  ⟨List.intercalate rep.data (splitOnAuxL pat.data (s.data.length + 1) s.data [])⟩

/-- Model of Python `str.lower()`. -/
def lowerS (s : String) : String :=
  ⟨s.data.map Char.toLower⟩

/-- Does `needle` occur as a contiguous sublist of `hay`? -/
def hasSubL (needle : List Char) : List Char → Bool
  | [] => needle.isEmpty
  | c :: rest => needle.isPrefixOf (c :: rest) || hasSubL needle rest

/-- Model of the Python `needle in hay` substring test. -/
def hasSubS (needle hay : String) : Bool :=
  hasSubL needle.data hay.data

/-! ### Numeric literal parsing (models of `int()` and `float()`) -/

/-- Accumulate the value of a digit list; `none` on any non-digit. -/
def digitsValAux : List Char → Nat → Option Nat
  | [], acc => some acc
  | c :: rest, acc =>
      if c.isDigit then digitsValAux rest (acc * 10 + (c.toNat - 48)) else none

/-- Value of a non-empty all-digit list, `none` otherwise. -/
def digitsVal? (cs : List Char) : Option Nat :=
  if cs.isEmpty then none else digitsValAux cs 0

/-- Value of an all-digit list, defaulting missing/invalid to 0. -/
def intVal (cs : List Char) : Nat :=
  (digitsValAux cs 0).getD 0

/-- Models Python `int()` on an already-stripped string: optional sign and
decimal digits.  (Python additionally allows underscores between digits and
surrounding whitespace; the modelled inputs never use either.) -/
def parseInt? (s : String) : Option Int :=
  match s.data with
  | '-' :: rest => (digitsVal? rest).map (fun n => -(n : Int))
  | '+' :: rest => (digitsVal? rest).map (fun n => (n : Int))
  | cs => (digitsVal? cs).map (fun n => (n : Int))

/-- Unsigned decimal literal `digits[.digits]`, valued exactly as a rational. -/
def parseDecimal? (cs : List Char) : Option ℚ :=
  let intPart := cs.takeWhile Char.isDigit
  let rest := cs.dropWhile Char.isDigit
  match rest with
  | [] => if intPart.isEmpty then none else some ((intVal intPart : Nat) : ℚ)
  | c :: frac =>
      if c == '.' && frac.all Char.isDigit && !(intPart.isEmpty && frac.isEmpty) then
        some ((intVal intPart : ℚ) + (intVal frac : ℚ) / (10 : ℚ) ^ frac.length)
      else none

/-- Models Python `float()` on the plain decimal literals occurring in the
data files (`[+-]?digits[.digits]`); exponent/inf/nan forms never occur. -/
def parseRat? (s : String) : Option ℚ :=
  match s.data with
  | '-' :: rest => (parseDecimal? rest).map (fun q => -q)
  | '+' :: rest => parseDecimal? rest
  | cs => parseDecimal? cs

/-! ### Event dictionaries

`src/IS_AMDC/parse_intel_bandwidth.py`, `src/IS_IC/parse_intel_ipc_ic.py` and
`src/IS_IC/parse_intels_ic.py` all build a Python dict `events` from the rows
of a perf-stat CSV export with the same loop.  A dict is modelled as an
insertion-ordered association list updated by `upsert`. -/

/-- Raw event dictionary: event name to integer count. -/
abbrev EventMap := List (String × Int)

/-- Python dict assignment `events[k] = v`: update in place if present
(keeping insertion order), else append. -/
def upsert (m : EventMap) (k : String) (v : Int) : EventMap :=
  if (m.lookup k).isSome then
    m.map (fun p => if p.1 = k then (k, v) else p)
  else
    m ++ [(k, v)]

/-- Python `events.get(k, 0)`. -/
def getEv (m : EventMap) (k : String) : Int :=
  (m.lookup k).getD 0

/-- The line filter `lambda row: row.strip() and not row.strip().startswith('#')`
applied before the csv reader: keep non-blank lines not starting with `#`. -/
def keepLine (l : String) : Bool :=
  (trimS l).data ≠ [] && !(List.isPrefixOf "#".data (trimS l).data)

/-- Per-line event extraction of the shared loop body: `value_str = row[0]`,
`event_name = row[2]`; a `<not supported>` value stores 0; otherwise the value
must parse as `int`, and `IndexError`/`ValueError` skip the line (`none`). -/
def lineEvent (line : String) : Option (String × Int) :=
  let row := splitOnS line ","
  if 3 ≤ row.length then
    let value_str := trimS (row.getD 0 "")
    let event_name := trimS (row.getD 2 "")
    if hasSubS "<not supported>" value_str then
      some (event_name, 0)
    else
      match parseInt? value_str with
      | some n => some (event_name, n)
      | none => none
  else none

/-- One iteration of the event loop: store the extracted event, or leave the
dictionary unchanged when the line is skipped. -/
def stepEvents (m : EventMap) (line : String) : EventMap :=
  match lineEvent line with
  | some (e, v) => upsert m e v
  | none => m

/-- The event dictionary built from a file's lines. -/
def eventsOf (lines : List String) : EventMap :=
  (lines.filter keepLine).foldl stepEvents []

/-- `parse_bandwidth_csv` (src/IS_AMDC/parse_intel_bandwidth.py lines 6-42).
`none` input models a missing/unreadable file; an empty event dictionary is
turned into `None`. -/
def parse_bandwidth_csv (file : Option (List String)) : Option EventMap :=
  match file with
  | none => none
  | some lines =>
      let events := eventsOf lines
      if events = [] then none else some events

/-- `parse_perf_csv` (src/IS_IC/parse_intel_ipc_ic.py lines 6-42) is textually
identical to `parse_bandwidth_csv`. -/
def parse_perf_csv : Option (List String) → Option EventMap :=
  parse_bandwidth_csv

/-! ### Metric calculators -/

/-- `safe_divide` from `calculate_bandwidth` / `calculate_ipc`
(src/IS_AMDC/parse_intel_bandwidth.py lines 59-60, src/IS_IC/parse_intel_ipc_ic.py
lines 57-58): `numerator / denominator if denominator else 0.0`. -/
def safe_divide (numerator denominator : ℚ) : ℚ :=
  if denominator ≠ 0 then numerator / denominator else 0

/-- `safe_divide` from `parse_and_calculate_metrics`
(src/IS_IC/parse_intels_ic.py lines 46-47):
`(numerator / denominator) * 100 if denominator else 0.0`. -/
def safe_divide_pct (numerator denominator : ℚ) : ℚ :=
  if denominator ≠ 0 then numerator / denominator * 100 else 0

/-- Output of `calculate_bandwidth` (src/IS_AMDC/parse_intel_bandwidth.py 44-78). -/
structure BandwidthMetrics where
  Read_Bandwidth_GBs : ℚ
  Write_Bandwidth_GBs : ℚ
  Total_Bandwidth_GBs : ℚ
  deriving DecidableEq

/-- `calculate_bandwidth` (src/IS_AMDC/parse_intel_bandwidth.py lines 44-78). -/
def calculate_bandwidth (events : EventMap) (time_elapsed : ℚ) : BandwidthMetrics :=
  let BYTES_PER_CAS : ℚ := 64
  let GIGABYTE : ℚ := 1024 ^ 3
  { Read_Bandwidth_GBs :=
      safe_divide ((getEv events "unc_m_cas_count.rd_reg" : ℚ) * BYTES_PER_CAS)
        (time_elapsed * GIGABYTE)
    Write_Bandwidth_GBs :=
      safe_divide ((getEv events "unc_m_cas_count.wr_wmm" : ℚ) * BYTES_PER_CAS)
        (time_elapsed * GIGABYTE)
    Total_Bandwidth_GBs :=
      safe_divide ((getEv events "unc_m_cas_count.all" : ℚ) * BYTES_PER_CAS)
        (time_elapsed * GIGABYTE) }

/-- Output of `calculate_ipc` (src/IS_IC/parse_intel_ipc_ic.py lines 44-77). -/
structure IPCMetrics where
  IPC : ℚ
  Instructions : Int
  Cycles : Int
  deriving DecidableEq

/-- `calculate_ipc` (src/IS_IC/parse_intel_ipc_ic.py lines 44-77). -/
def calculate_ipc (events : EventMap) : IPCMetrics :=
  let instructions := getEv events "cpu_core/instructions/"
  let cycles := getEv events "cpu_core/cpu-cycles/"
  { IPC := safe_divide (instructions : ℚ) (cycles : ℚ)
    Instructions := instructions
    Cycles := cycles }

/-- Output of the calculation section of `parse_and_calculate_metrics`
(src/IS_IC/parse_intels_ic.py lines 44-78). -/
structure ICMetrics where
  IC_Miss_Percentage : ℚ
  DC_Miss_Percentage : ℚ
  L2_Miss_Percentage : ℚ
  L3_Miss_Percentage : ℚ
  L2_Miss_Rate_from_IC_Miss : ℚ
  L2_Miss_Rate_from_DC_Miss : ℚ
  IC_Hit_Percentage : ℚ
  DC_Hit_Percentage : ℚ
  L2_Hit_Percentage : ℚ
  L3_Hit_Percentage : ℚ
  deriving DecidableEq

/-- Calculation section of `parse_and_calculate_metrics`
(src/IS_IC/parse_intels_ic.py lines 49-73).  Note the L1 instruction-cache
denominator `ic_loads` is `icache.accesses - icache.misses`. -/
def calculate_ic_metrics (events : EventMap) : ICMetrics :=
  let ic_loads : ℚ :=
    (getEv events "cpu_atom/icache.accesses/" : ℚ) -
      (getEv events "cpu_atom/icache.misses/" : ℚ)
  let icMiss := safe_divide_pct (getEv events "cpu_atom/icache.misses/" : ℚ) ic_loads
  let dcMiss := safe_divide_pct (getEv events "cpu_core/L1-dcache-load-misses/" : ℚ)
    (getEv events "cpu_core/L1-dcache-loads/" : ℚ)
  let l2Miss := safe_divide_pct (getEv events "cpu_core/l2_rqsts.miss/" : ℚ)
    (getEv events "cpu_core/l2_rqsts.references/" : ℚ)
  let l3Miss := safe_divide_pct (getEv events "cpu_core/LLC-load-misses/" : ℚ)
    (getEv events "cpu_core/LLC-loads/" : ℚ)
  { IC_Miss_Percentage := icMiss
    DC_Miss_Percentage := dcMiss
    L2_Miss_Percentage := l2Miss
    L3_Miss_Percentage := l3Miss
    L2_Miss_Rate_from_IC_Miss :=
      safe_divide_pct (getEv events "cpu_core/l2_rqsts.code_rd_miss/" : ℚ)
        (getEv events "cpu_atom/icache.misses/" : ℚ)
    L2_Miss_Rate_from_DC_Miss :=
      safe_divide_pct (getEv events "cpu_core/l2_rqsts.demand_data_rd_miss/" : ℚ)
        (getEv events "cpu_core/L1-dcache-load-misses/" : ℚ)
    IC_Hit_Percentage := 100 - icMiss
    DC_Hit_Percentage := 100 - dcMiss
    L2_Hit_Percentage := 100 - l2Miss
    L3_Hit_Percentage := 100 - l3Miss }

/-- `parse_and_calculate_metrics` (src/IS_IC/parse_intels_ic.py lines 6-78):
event parsing as in `parse_bandwidth_csv`, then the metric calculation. -/
def parse_and_calculate_metrics (file : Option (List String)) : Option ICMetrics :=
  (parse_bandwidth_csv file).map calculate_ic_metrics

/-! ### AMDS/AMDC enhanced parser (src/AMDS_IC_Updated/parse_amds_amdc_emhanced.py) -/

/-- `calculate_ic_hit_percentage` (lines 6-9). -/
def calculate_ic_hit_percentage (ic_access ic_miss : ℚ) : ℚ :=
  if ic_access = 0 then 0 else (ic_access - ic_miss) / ic_access * 100

/-- `calculate_dc_hit_percentage` (lines 11-14). -/
def calculate_dc_hit_percentage (dc_access l2_access_from_dc_miss : ℚ) : ℚ :=
  if dc_access = 0 then 0 else (dc_access - l2_access_from_dc_miss) / dc_access * 100

/-- `calculate_l2_miss_percentage` (lines 16-19). -/
def calculate_l2_miss_percentage (l2_miss l2_access : ℚ) : ℚ :=
  if l2_access = 0 then 0 else l2_miss / l2_access * 100

/-- `calculate_l2_hit_from_ic_miss_percentage` (lines 21-24). -/
def calculate_l2_hit_from_ic_miss_percentage (l2_hit l2_access_from_ic_miss : ℚ) : ℚ :=
  if l2_access_from_ic_miss = 0 then 0 else l2_hit / l2_access_from_ic_miss * 100

/-- `calculate_l2_hit_from_dc_miss_percentage` (lines 26-29). -/
def calculate_l2_hit_from_dc_miss_percentage (l2_hit l2_access_from_dc_miss : ℚ) : ℚ :=
  if l2_access_from_dc_miss = 0 then 0 else l2_hit / l2_access_from_dc_miss * 100

/-- `calculate_l2_hit_from_hwpf_percentage` (lines 31-34). -/
def calculate_l2_hit_from_hwpf_percentage (l2_hit l2_access_from_hwpf : ℚ) : ℚ :=
  if l2_access_from_hwpf = 0 then 0 else l2_hit / l2_access_from_hwpf * 100

/-- `is_valid_data_row` (lines 36-48): field count must match the header and
the first field must be non-empty and parse as a float. -/
def is_valid_data_row (row_data headers : List String) : Bool :=
  row_data.length == headers.length &&
    (let first_val := trimS (row_data.headD "")
     first_val.data ≠ [] && (parseRat? first_val).isSome)

/-- Index of the first line containing the literal marker `System (Aggregated)`. -/
def findMarker : List String → Option Nat
  | [] => none
  | l :: ls =>
      if hasSubS "System (Aggregated)" l then some 0
      else (findMarker ls).map (· + 1)

/-- The header row of `parse_csv_file`: the line after the marker, split on
commas, every field stripped (lines 67-68). -/
def headersAt (lines : List String) (i : Nat) : List String :=
  (splitOnS (trimS ((lines.drop (i + 1)).headD "")) ",").map trimS

/-- The data rows of `parse_csv_file`: every non-blank line after the header,
split on commas and stripped, kept only if `is_valid_data_row` accepts it
(lines 70-76). -/
def validRowsAt (lines : List String) (i : Nat) : List (List String) :=
  ((((lines.drop (i + 2)).map trimS).filter (fun l => l.data ≠ [])).map
      (fun l => (splitOnS l ",").map trimS)).filter
    (fun r => is_valid_data_row r (headersAt lines i))

/-- `parse_csv_file` (lines 50-93).  Returns the header row and the valid data
rows (the DataFrame contents), or `none` when the marker is absent, the marker
is the last line, or fewer than `min_rows` valid rows remain. -/
def parse_csv_file (lines : List String) (min_rows : Nat) :
    Option (List String × List (List String)) :=
  match findMarker lines with
  | none => none
  | some i =>
      if lines.length ≤ i + 1 then none
      else
        if (validRowsAt lines i).length < min_rows then none
        else some (headersAt lines i, validRowsAt lines i)

/-! ### Instruction mix (src/Instructions/parse.py) -/

/-- The dictionary produced by `parse_instruction_file`: the four counters it
may extract (lines 56-73). -/
structure InstrData where
  total_instructions : Option Int := none
  branch_instructions : Option Int := none
  load_ops : Option Int := none
  store_ops : Option Int := none
  deriving DecidableEq

/-- The dictionary returned by `calculate_percentages` (lines 78-121). -/
structure InstrResult where
  percent_branch : ℚ
  percent_load : ℚ
  percent_store : ℚ
  percent_alu : ℚ
  total_instructions : Int
  branch_instructions : Int
  load_ops : Int
  store_ops : Int
  alu_ops : Int
  deriving DecidableEq

/-- `calculate_percentages` (src/Instructions/parse.py lines 78-121). -/
def calculate_percentages (d : InstrData) : InstrResult :=
  let total := d.total_instructions.getD 0
  let branch := d.branch_instructions.getD 0
  let load := d.load_ops.getD 0
  let store := d.store_ops.getD 0
  if 0 < total then
    let alu := total - branch - load - store
    { percent_branch := (branch : ℚ) / (total : ℚ) * 100
      percent_load := (load : ℚ) / (total : ℚ) * 100
      percent_store := (store : ℚ) / (total : ℚ) * 100
      percent_alu := (alu : ℚ) / (total : ℚ) * 100
      total_instructions := total
      branch_instructions := branch
      load_ops := load
      store_ops := store
      alu_ops := alu }
  else
    { percent_branch := 0, percent_load := 0, percent_store := 0, percent_alu := 0
      total_instructions := 0, branch_instructions := 0, load_ops := 0
      store_ops := 0, alu_ops := 0 }

/-! ### Energy/performance aggregation (src/AMDS_AMDC/parse_extras.py)

A file is a pair of its basename and its list of lines.  The per-file parse
result is the Python `data` dictionary; `ftype` models the `Type` key. -/

/-- The `data` dictionary built by `parse_energy_file` / `parse_performance_file`. -/
structure ParsedFileData where
  config : Option String := none
  algorithm : Option String := none
  ftype : Option String := none
  energy : Option ℚ := none
  bi : Option Int := none
  bm : Option Int := none
  missCalc : Option ℚ := none
  missReported : Option ℚ := none
  deriving DecidableEq

/-- First line satisfying a predicate (the `for line in lines: if ...: break`
idiom). -/
def firstLine (p : String → Bool) : List String → Option String
  | [] => none
  | l :: ls => if p l then some l else firstLine p ls

/-- `parse_energy_file` (src/AMDS_AMDC/parse_extras.py lines 13-36). -/
def parse_energy_file (filename : String) (lines : List String) : ParsedFileData :=
  let d0 : ParsedFileData :=
    if hasSubS "_energy_" filename then
      let parts := splitOnS (replaceS filename ".csv" "") "_energy_"
      { config := some (parts.headD "")
        algorithm := some (if 1 < parts.length then parts.getD 1 "" else "unknown")
        ftype := some "energy" }
    else {}
  match firstLine (fun l => hasSubS "Joules" l) lines with
  | none => d0
  | some line =>
      let parts := splitOnS (trimS line) ","
      -- float(parts[0]); a failure raises and is caught, leaving data as built
      match parseRat? (parts.headD "") with
      | some q => { d0 with energy := some q }
      | none => d0

/-- Scanner state of `parse_performance_file`: the `branch_instructions`,
`branch_misses` locals and the reported-percentage field. -/
structure PerfScanSt where
  bi : Option Int := none
  bm : Option Int := none
  rep : Option ℚ := none
  deriving DecidableEq

/-- The line loop of `parse_performance_file` (lines 56-70).  The returned
flag is false when `int(parts[0])` raises, which aborts the loop (the
exception is caught after the percentage calculation, skipping it). -/
def perfScan : List String → PerfScanSt → PerfScanSt × Bool
  | [], st => (st, true)
  | l :: rest, st =>
      if hasSubS "branch-instructions" l then
        let parts := splitOnS (trimS l) ","
        match parseInt? (parts.headD "") with
        | some n => perfScan rest { st with bi := some n }
        | none => (st, false)
      else if hasSubS "branch-misses" l then
        let parts := splitOnS (trimS l) ","
        match parseInt? (parts.headD "") with
        | some n =>
            let st := { st with bm := some n }
            -- the reported percentage: parts[4], with a pass-on-failure try
            let st :=
              if 4 < parts.length then
                match parseRat? (parts.getD 4 "") with
                | some q => { st with rep := some q }
                | none => st
              else st
            perfScan rest st
        | none => (st, false)
      else perfScan rest st

/-- Python truthiness of an optional integer (`None` and `0` are falsy). -/
def truthyInt : Option Int → Bool
  | none => false
  | some n => n != 0

/-- `parse_performance_file` (src/AMDS_AMDC/parse_extras.py lines 38-79). -/
def parse_performance_file (filename : String) (lines : List String) : ParsedFileData :=
  let d0 : ParsedFileData :=
    if hasSubS "_performance_" filename || hasSubS "_perfomance_" filename then
      let parts :=
        splitOnS (replaceS (replaceS filename ".csv" "") "_perfomance_" "_performance_")
          "_performance_"
      { config := some (parts.headD "")
        algorithm := some (if 1 < parts.length then parts.getD 1 "" else "unknown")
        ftype := some "performance" }
    else {}
  let (st, ok) := perfScan lines {}
  let d1 := { d0 with bi := st.bi, bm := st.bm, missReported := st.rep }
  if ok && truthyInt st.bi && truthyInt st.bm then
    { d1 with
      missCalc := some ((st.bm.getD 0 : ℚ) / (st.bi.getD 0 : ℚ) * 100) }
  else d1

/-- A row of `grouped_data` in `main` (lines 120-141). -/
structure Row where
  Config : String
  Algorithm : String
  Performance_File : String
  Energy_File : String
  Branch_Instructions : Option Int := none
  Branch_Misses : Option Int := none
  Misses_pct : Option ℚ := none
  Energy_Joules : Option ℚ := none
  deriving DecidableEq

instance : Inhabited Row := ⟨⟨"", "", "", "", none, none, none, none⟩⟩

/-- Grouped rows keyed by `(Config, Algorithm)`, insertion ordered. -/
abbrev Groups := List ((String × String) × Row)

/-- Python dict assignment on the grouped rows. -/
def upsertRow (gs : Groups) (k : String × String) (v : Row) : Groups :=
  if (gs.lookup k).isSome then
    gs.map (fun p => if p.1 = k then (k, v) else p)
  else
    gs ++ [(k, v)]

/-- Merging one parsed file into `grouped_data` (lines 120-141). -/
def mergeFile (gs : Groups) (filename : String) (d : ParsedFileData) : Groups :=
  match d.config, d.algorithm with
  | some c, some a =>
      let key := (c, a)
      let g0 : Row :=
        match gs.lookup key with
        | some r => r
        | none => { Config := c, Algorithm := a, Performance_File := "", Energy_File := "" }
      let g1 :=
        if d.ftype = some "performance" then
          { g0 with
            Performance_File := filename
            Branch_Instructions := d.bi
            Branch_Misses := d.bm
            Misses_pct := d.missCalc }
        else if d.ftype = some "energy" then
          { g0 with Energy_File := filename, Energy_Joules := d.energy }
        else g0
      upsertRow gs key g1
  | _, _ => gs

/-- File routing in `main` (lines 112-118): energy files are recognised by the
substring `energy` in the lower-cased name, performance files by
`performance`/`perfomance`; anything else is skipped. -/
def routeFile (filename : String) (lines : List String) : Option ParsedFileData :=
  if hasSubS "energy" (lowerS filename) then
    some (parse_energy_file filename lines)
  else if hasSubS "performance" (lowerS filename) ||
      hasSubS "perfomance" (lowerS filename) then
    some (parse_performance_file filename lines)
  else none

/-- The glob patterns of `main` (lines 83-92), each of the shape
`prefix*.csv`. -/
def extrasGlobs : List String :=
  ["AMDC_AMDS_performance_pb", "AMDC_AMDS_perfomance_pb",
   "AMDS_AMDC_performance_pc", "AMDS_AMDC_perfomance_pc",
   "AMDC_AMDS_pb_energy", "AMDS_AMDC_pb_energy",
   "AMDC_AMDS_pb_performance", "AMDS_AMDC_pb_performance"]

/-- Does a basename match the glob `pre*.csv`? -/
def globMatch (pre : String) (name : String) : Bool :=
  pre.data.isPrefixOf name.data &&
    pre.data.length + 4 ≤ name.data.length &&
    List.isPrefixOf ".csv".data ((name.data.drop (name.data.length - 4)))

/-- One pass of the inner file loop: route, parse and merge a single file. -/
def stepFile (gs : Groups) (f : String × List String) : Groups :=
  match routeFile f.1 f.2 with
  | some d => mergeFile gs f.1 d
  | none => gs

/-- `grouped_data` built by `main` (lines 104-141): for each pattern in turn,
every matching file of the input directory is parsed and merged. -/
def mainGroups (dir : List (String × List String)) : Groups :=
  extrasGlobs.foldl
    (fun gs pre => (dir.filter (fun f => globMatch pre f.1)).foldl stepFile gs) []

/-- The per-file loop applied to given files directly, without the glob
discovery step. -/
def processAllFiles (files : List (String × List String)) : Groups :=
  files.foldl stepFile []

/-- `df.sort_values(['Config', 'Algorithm'])` sort key: lexicographic on the
`(Config, Algorithm)` string pair, as Python tuple comparison. -/
def rowLeP (a b : Row) : Prop :=
  a.Config < b.Config ∨ (a.Config = b.Config ∧ ¬ b.Algorithm < a.Algorithm)

instance : DecidableRel rowLeP := fun a b =>
  inferInstanceAs
    (Decidable (a.Config < b.Config ∨ (a.Config = b.Config ∧ ¬ b.Algorithm < a.Algorithm)))

/-- The sort of the accumulated rows (line 176), modelled by a stable sort. -/
def sortRows (rows : List Row) : List Row :=
  List.insertionSort rowLeP rows

/-- `main`, lines 143-176: `None` when no file grouped, else the sorted rows. -/
def mainOutput (dir : List (String × List String)) : Option (List Row) :=
  let gs := mainGroups dir
  if gs = [] then none else some (sortRows (gs.map Prod.snd))

/-! ### Output column ordering -/

/-- Column reordering in `main` (src/AMDS_AMDC/parse_extras.py lines 153-173):
the preferred columns that are present, then every other DataFrame column in
its existing (first-seen) order. -/
def reorderColumns (preferred cols : List String) : List String :=
  let present := preferred.filter (fun c => cols.contains c)
  present ++ cols.filter (fun c => !present.contains c)

/-- The fixed preferred column order of `main` (lines 154-163). -/
def extrasColumnOrder : List String :=
  ["Config", "Algorithm", "Branch_Instructions", "Branch_Misses",
   "Misses_%", "Energy_Joules", "Performance_File", "Energy_File"]

/-- Header construction of `write_summary_csv`
(src/IS_AMDC/parse_intel_bandwidth.py lines 92-98, identically
src/IS_IC/parse_intels_ic.py and parse_intel_ipc_ic.py): `filename` first,
then the remaining keys sorted alphabetically.  `keys` lists the union of the
record keys in first-seen order. -/
def writeSummaryHeader (keys : List String) : List String :=
  "filename" ::
    List.insertionSort (fun a b => a ≤ b)
      ((keys.eraseDups).filter (fun k => k != "filename"))

/-! ### Concrete inputs used by specific claims -/

/-- Energy file of the end-to-end scenario: a `Joules` row valued `12.5`. -/
def c3EnergyFile : String × List String :=
  ("cfgA_energy_algo1.csv", ["12.5,,Joules"])

/-- Performance file of the end-to-end scenario: `branch-instructions` = 1000
and `branch-misses` = 50. -/
def c3PerfFile : String × List String :=
  ("cfgA_performance_algo1.csv", ["1000,,branch-instructions", "50,,branch-misses"])

/-- The two-file input directory of the end-to-end scenario. -/
def c3Dir : List (String × List String) :=
  [c3EnergyFile, c3PerfFile]

/-- The aggregated row the end-to-end scenario describes. -/
def c3ExpectedRow : Row :=
  { Config := "cfgA"
    Algorithm := "algo1"
    Performance_File := "cfgA_performance_algo1.csv"
    Energy_File := "cfgA_energy_algo1.csv"
    Branch_Instructions := some 1000
    Branch_Misses := some 50
    Misses_pct := some 5
    Energy_Joules := some (25 / 2) }

/-- Events with `icache.accesses` = 3 and `icache.misses` = 2, where more than
half the instruction-cache accesses miss. -/
def c10Events : EventMap :=
  [("cpu_atom/icache.accesses/", 3), ("cpu_atom/icache.misses/", 2)]

/-- Two rows sharing the sort key `("c", "a")`, distinguishable by their
performance-file field. -/
def c6RowA : Row :=
  { Config := "c", Algorithm := "a", Performance_File := "p1", Energy_File := "" }

/-- Second row with the same sort key as `c6RowA`. -/
def c6RowB : Row :=
  { Config := "c", Algorithm := "a", Performance_File := "p2", Energy_File := "" }

/-! ### Helper lemmas -/

theorem parse_bandwidth_csv_some (lines : List String) :
    parse_bandwidth_csv (some lines) =
      if eventsOf lines = [] then none else some (eventsOf lines) := rfl

theorem upsert_ne_nil (m : EventMap) (k : String) (v : Int) : upsert m k v ≠ [] := by
  unfold upsert
  split
  · cases m with
    | nil => simp [List.lookup] at *
    | cons p rest => simp
  · simp

theorem stepEvents_ne_nil {m : EventMap} (l : String) (h : m ≠ []) :
    stepEvents m l ≠ [] := by
  unfold stepEvents
  cases he : lineEvent l with
  | none => exact h
  | some p => exact upsert_ne_nil m p.1 p.2

theorem foldl_stepEvents_ne_nil {m : EventMap} (ls : List String) (h : m ≠ []) :
    ls.foldl stepEvents m ≠ [] := by
  induction ls generalizing m with
  | nil => exact h
  | cons l ls ih => exact ih (stepEvents_ne_nil l h)

theorem foldl_stepEvents_nil_iff (ls : List String) :
    ls.foldl stepEvents [] = [] ↔ ∀ l ∈ ls, lineEvent l = none := by
  induction ls with
  | nil => simp
  | cons l ls ih =>
      simp only [List.foldl_cons, List.mem_cons]
      cases he : lineEvent l with
      | none =>
          have hstep : stepEvents [] l = [] := by unfold stepEvents; rw [he]
          rw [hstep, ih]
          constructor
          · intro h a ha
            rcases ha with rfl | ha
            · exact he
            · exact h a ha
          · intro h a ha
            exact h a (Or.inr ha)
      | some p =>
          have hstep : stepEvents [] l = [(p.1, p.2)] := by
            unfold stepEvents
            rw [he]
            rfl
          rw [hstep]
          constructor
          · intro h
            exact absurd h (foldl_stepEvents_ne_nil ls (by simp))
          · intro h
            have := h l (Or.inl rfl)
            rw [he] at this
            cases this

/-! ### Claim theorems -/

/-- C1: every metric calculator yields exactly 0 on a zero denominator —
`safe_divide` (both variants) returns 0 when the denominator is 0, each
`calculate_*_percentage` function returns 0 when its denominator argument is
0, and a metric whose denominator event is absent from the raw record (the
dictionary lookup returns nothing, so `.get(..., 0)` supplies the fallback 0)
evaluates to 0 instead of failing. -/
theorem c1_zero_denominator_policy :
    (∀ n : ℚ, safe_divide n 0 = 0) ∧
    (∀ n : ℚ, safe_divide_pct n 0 = 0) ∧
    (∀ m : ℚ, calculate_ic_hit_percentage 0 m = 0) ∧
    (∀ m : ℚ, calculate_dc_hit_percentage 0 m = 0) ∧
    (∀ m : ℚ, calculate_l2_miss_percentage m 0 = 0) ∧
    (∀ m : ℚ, calculate_l2_hit_from_ic_miss_percentage m 0 = 0) ∧
    (∀ m : ℚ, calculate_l2_hit_from_dc_miss_percentage m 0 = 0) ∧
    (∀ m : ℚ, calculate_l2_hit_from_hwpf_percentage m 0 = 0) ∧
    (∀ events : EventMap, events.lookup "cpu_core/L1-dcache-loads/" = none →
       (calculate_ic_metrics events).DC_Miss_Percentage = 0) ∧
    (∀ events : EventMap, events.lookup "cpu_core/cpu-cycles/" = none →
       (calculate_ipc events).IPC = 0) := by
  refine ⟨?_, ?_, ?_, ?_, ?_, ?_, ?_, ?_, ?_, ?_⟩
  · intro n; simp [safe_divide]
  · intro n; simp [safe_divide_pct]
  · intro m; simp [calculate_ic_hit_percentage]
  · intro m; simp [calculate_dc_hit_percentage]
  · intro m; simp [calculate_l2_miss_percentage]
  · intro m; simp [calculate_l2_hit_from_ic_miss_percentage]
  · intro m; simp [calculate_l2_hit_from_dc_miss_percentage]
  · intro m; simp [calculate_l2_hit_from_hwpf_percentage]
  · intro events h
    simp [calculate_ic_metrics, getEv, h, safe_divide_pct]
  · intro events h
    simp [calculate_ipc, getEv, h, safe_divide]

/-- C1 witness: the guarded divisions at concrete zero/absent denominators. -/
theorem c1_zero_denominator_policy_witness :
    safe_divide 7 0 = 0 ∧ calculate_l2_miss_percentage 3 0 = 0 ∧
    (calculate_ic_metrics [("x", 1)]).DC_Miss_Percentage = 0 :=
  ⟨c1_zero_denominator_policy.1 7,
   c1_zero_denominator_policy.2.2.2.2.1 3,
   c1_zero_denominator_policy.2.2.2.2.2.2.2.2.1 [("x", 1)] (by decide)⟩

/-- C2: in `parse_and_calculate_metrics` each hit percentage is defined as
100 minus the corresponding miss percentage, so every hit/miss pair computed
from the same record sums to exactly 100, for every event dictionary. -/
theorem c2_hit_miss_complement (events : EventMap) :
    (calculate_ic_metrics events).IC_Hit_Percentage +
        (calculate_ic_metrics events).IC_Miss_Percentage = 100 ∧
    (calculate_ic_metrics events).DC_Hit_Percentage +
        (calculate_ic_metrics events).DC_Miss_Percentage = 100 ∧
    (calculate_ic_metrics events).L2_Hit_Percentage +
        (calculate_ic_metrics events).L2_Miss_Percentage = 100 ∧
    (calculate_ic_metrics events).L3_Hit_Percentage +
        (calculate_ic_metrics events).L3_Miss_Percentage = 100 := by
  refine ⟨?_, ?_, ?_, ?_⟩ <;> simp [calculate_ic_metrics]

/-- C8: when `total_instructions > 0` the four instruction-mix percentages of
`calculate_percentages` sum to exactly 100 (the ALU count is the total minus
the other three subcounts), and when the total is 0 or absent every field of
the result, raw counts included, is exactly 0. -/
theorem c8_instruction_mix (d : InstrData) :
    (0 < d.total_instructions.getD 0 →
       (calculate_percentages d).percent_branch + (calculate_percentages d).percent_load +
         (calculate_percentages d).percent_store + (calculate_percentages d).percent_alu
         = 100) ∧
    (d.total_instructions = none ∨ d.total_instructions = some 0 →
       calculate_percentages d = ⟨0, 0, 0, 0, 0, 0, 0, 0, 0⟩) := by
  constructor
  · intro h
    have ht : ((d.total_instructions.getD 0 : Int) : ℚ) ≠ 0 := by
      exact_mod_cast ne_of_gt (by exact_mod_cast h)
    simp only [calculate_percentages, if_pos h]
    push_cast
    field_simp
    ring
  · intro h
    have h0 : d.total_instructions.getD 0 = 0 := by
      rcases h with h | h <;> simp [h]
    simp [calculate_percentages, h0]

/-- C8 witness: a record with total 4 and subcounts 1, 1, 1 (percentages
25 + 25 + 25 + 25 = 100), and one with the total absent (all-zero result). -/
theorem c8_instruction_mix_witness :
    (calculate_percentages ⟨some 4, some 1, some 1, some 1⟩).percent_branch +
        (calculate_percentages ⟨some 4, some 1, some 1, some 1⟩).percent_load +
        (calculate_percentages ⟨some 4, some 1, some 1, some 1⟩).percent_store +
        (calculate_percentages ⟨some 4, some 1, some 1, some 1⟩).percent_alu = 100 ∧
    calculate_percentages ⟨none, some 5, none, none⟩ = ⟨0, 0, 0, 0, 0, 0, 0, 0, 0⟩ :=
  ⟨(c8_instruction_mix ⟨some 4, some 1, some 1, some 1⟩).1 (by decide),
   (c8_instruction_mix ⟨none, some 5, none, none⟩).2 (Or.inl rfl)⟩

/-- C10: the L1 instruction-cache miss percentage of
`parse_and_calculate_metrics` divides by `icache.accesses - icache.misses`
rather than by `icache.accesses`; with accesses = 3 and misses = 2 it equals
200 (> 100) and the derived hit percentage is -100 (< 0). -/
theorem c10_ic_miss_unbounded :
    (calculate_ic_metrics c10Events).IC_Miss_Percentage = 200 ∧
    (calculate_ic_metrics c10Events).IC_Hit_Percentage = -100 ∧
    100 < (calculate_ic_metrics c10Events).IC_Miss_Percentage ∧
    (calculate_ic_metrics c10Events).IC_Hit_Percentage < 0 ∧
    ∀ events : EventMap,
      (calculate_ic_metrics events).IC_Miss_Percentage =
        safe_divide_pct (getEv events "cpu_atom/icache.misses/" : ℚ)
          ((getEv events "cpu_atom/icache.accesses/" : ℚ) -
            (getEv events "cpu_atom/icache.misses/" : ℚ)) := by
  have h200 : (calculate_ic_metrics c10Events).IC_Miss_Percentage = 200 := by
    with_unfolding_all rfl
  have hm100 : (calculate_ic_metrics c10Events).IC_Hit_Percentage = -100 := by
    with_unfolding_all rfl
  refine ⟨h200, hm100, ?_, ?_, ?_⟩
  · rw [h200]; norm_num
  · rw [hm100]; norm_num
  · intro events; rfl

/-- C4 counterexample: a non-numeric value string other than the
`<not supported>` sentinel does not map the event's stored value to 0 — the
line is skipped and nothing at all is stored for the event (here the parsed
dictionary stays empty, so no entry for `evt` equals 0). -/
theorem c4_unparseable_counterexample :
    eventsOf ["abc,,evt"] = [] ∧
    (eventsOf ["abc,,evt"]).lookup "evt" ≠ some 0 := by decide

/-- C4 amended: in label/value mode the `<not supported>` sentinel maps the
event's stored value to 0; any other unparseable value string causes the line
to be skipped with no entry stored; and a line without a field at position 2
is skipped — in all cases the parse continues rather than aborting. -/
theorem c4_unparseable_amended (line : String) (events : EventMap) :
    (∀ v e, splitOnS line "," = [v, "", e] →
       hasSubS "<not supported>" (trimS v) = true →
       lineEvent line = some (trimS e, 0)) ∧
    (∀ v e, splitOnS line "," = [v, "", e] →
       hasSubS "<not supported>" (trimS v) = false →
       parseInt? (trimS v) = none →
       lineEvent line = none) ∧
    ((splitOnS line ",").length < 3 → lineEvent line = none) ∧
    (lineEvent line = none → stepEvents events line = events) := by
  refine ⟨?_, ?_, ?_, ?_⟩
  · intro v e hsplit hsent
    simp [lineEvent, hsplit, hsent]
  · intro v e hsplit hsent hint
    simp [lineEvent, hsplit, hsent, hint]
  · intro hlen
    simp [lineEvent]
    omega
  · intro hnone
    unfold stepEvents
    rw [hnone]

/-- C4 witness: the sentinel stores 0, a non-numeric value skips the line,
a two-field line skips, and a skipped line leaves the dictionary unchanged. -/
theorem c4_unparseable_amended_witness :
    lineEvent "<not supported>,,evt" = some ("evt", 0) ∧
    lineEvent "abc,,evt" = none ∧
    lineEvent "xy" = none ∧
    stepEvents [("k", 1)] "abc,,evt" = [("k", 1)] :=
  ⟨(c4_unparseable_amended "<not supported>,,evt" []).1 "<not supported>" "evt"
      (by decide) (by decide),
   (c4_unparseable_amended "abc,,evt" []).2.1 "abc" "evt"
      (by decide) (by decide) (by decide),
   (c4_unparseable_amended "xy" []).2.2.1 (by decide),
   (c4_unparseable_amended "abc,,evt" [("k", 1)]).2.2.2
      ((c4_unparseable_amended "abc,,evt" []).2.1 "abc" "evt"
        (by decide) (by decide) (by decide))⟩

/-- First helper for C7: if no line contains the marker substring, the marker
search fails. -/
theorem findMarker_eq_none (lines : List String)
    (h : ∀ l ∈ lines, hasSubS "System (Aggregated)" l = false) :
    findMarker lines = none := by
  induction lines with
  | nil => rfl
  | cons l ls ih =>
      unfold findMarker
      rw [h l (List.mem_cons_self l ls)]
      simp only [Bool.false_eq_true, if_false]
      rw [ih (fun a ha => h a (List.mem_cons_of_mem l ha))]
      rfl

/-- C7: table-mode parsing abstains instead of erroring — when no line
contains the marker `System (Aggregated)` the parse yields no record, and any
produced record contains at least `min_rows` rows, all of which passed the
validity filter (so fewer than `min_rows` valid rows also yield no record). -/
theorem c7_table_parse_abstains (lines : List String) (min_rows : Nat) :
    ((∀ l ∈ lines, hasSubS "System (Aggregated)" l = false) →
       parse_csv_file lines min_rows = none) ∧
    (∀ headers rows, parse_csv_file lines min_rows = some (headers, rows) →
       min_rows ≤ rows.length ∧ ∀ r ∈ rows, is_valid_data_row r headers = true) := by
  constructor
  · intro h
    unfold parse_csv_file
    rw [findMarker_eq_none lines h]
  · intro headers rows hsome
    unfold parse_csv_file at hsome
    split at hsome
    · cases hsome
    · split at hsome
      · cases hsome
      · split at hsome
        · cases hsome
        · rename_i hcnt
          rw [Option.some.injEq, Prod.mk.injEq] at hsome
          obtain ⟨h1, h2⟩ := hsome
          subst h1; subst h2
          refine ⟨Nat.le_of_not_lt hcnt, ?_⟩
          intro r hr
          unfold validRowsAt at hr
          exact (List.mem_filter.mp hr).2


/-- C7 witness: a file with no marker parses to nothing; a file with the
marker, a header and one valid row yields at least the minimum row count with
every row valid. -/
theorem c7_table_parse_abstains_witness :
    parse_csv_file ["a,b", "1,2"] 1 = none ∧
    (1 ≤ [["1", "2"]].length ∧
      ∀ r ∈ [["1", "2"]], is_valid_data_row r ["h1", "h2"] = true) :=
  ⟨(c7_table_parse_abstains ["a,b", "1,2"] 1).1 (by decide),
   (c7_table_parse_abstains ["x System (Aggregated) x", "h1,h2", "1,2"] 1).2
      ["h1", "h2"] [["1", "2"]] (by decide)⟩

/-- C9: the label/value event parsers never return an empty dictionary — the
result is `none` exactly when the file is absent/unreadable or no kept line
yields an event, any returned dictionary is non-empty, and `parse_perf_csv`
coincides with `parse_bandwidth_csv` on every input. -/
theorem c9_no_empty_event_map (file : Option (List String)) :
    (parse_bandwidth_csv file = none ↔
      (file = none ∨
        ∃ lines, file = some lines ∧
          ∀ l ∈ lines.filter keepLine, lineEvent l = none)) ∧
    (∀ m, parse_bandwidth_csv file = some m → m ≠ []) ∧
    parse_perf_csv file = parse_bandwidth_csv file := by
  refine ⟨?_, ?_, rfl⟩
  · cases file with
    | none => simp [parse_bandwidth_csv]
    | some lines =>
        rw [parse_bandwidth_csv_some]
        constructor
        · intro h
          refine Or.inr ⟨lines, rfl, ?_⟩
          rw [← foldl_stepEvents_nil_iff, ← eventsOf]
          by_cases he : eventsOf lines = []
          · exact he
          · exfalso
            rw [if_neg he] at h
            cases h
        · intro h
          rcases h with h | ⟨lines2, heq, hall⟩
          · cases h
          · injection heq with heq
            subst heq
            have he : eventsOf lines = [] := by
              rw [eventsOf, foldl_stepEvents_nil_iff]
              exact hall
            rw [if_pos he]
  · intro m hm
    cases file with
    | none => cases hm
    | some lines =>
        rw [parse_bandwidth_csv_some] at hm
        by_cases he : eventsOf lines = []
        · rw [if_pos he] at hm; cases hm
        · rw [if_neg he] at hm
          injection hm with hm
          subst hm
          exact he

/-- C9 witness: a one-event file parses to a non-empty dictionary. -/
theorem c9_no_empty_event_map_witness :
    ([("evt", (5 : Int))] : EventMap) ≠ [] :=
  (c9_no_empty_event_map (some ["5,,evt"])).2.1 [("evt", 5)] (by decide)

/-- C3 counterexample: on the directory holding exactly
`cfgA_energy_algo1.csv` and `cfgA_performance_algo1.csv`, the aggregation
script groups nothing and produces no output row at all — its hard-coded glob
patterns match neither filename. -/
theorem c3_end_to_end_counterexample :
    mainGroups c3Dir = [] ∧ mainOutput c3Dir = none := by
  have h : mainGroups c3Dir = [] := by decide
  refine ⟨h, ?_⟩
  unfold mainOutput
  rw [h]
  rfl

/-- C3 amended: when the same two files are fed to the per-file parsing and
grouping stage directly (bypassing the glob discovery, which matches neither
name), the result is exactly one aggregated row with Config `cfgA`, Algorithm
`algo1`, Branch_Instructions 1000, Branch_Misses 50, miss percentage 5.0 and
Energy_Joules 12.5, and sorting leaves this single row unchanged. -/
theorem c3_end_to_end_amended :
    processAllFiles c3Dir = [(("cfgA", "algo1"), c3ExpectedRow)] ∧
    sortRows ((processAllFiles c3Dir).map Prod.snd) = [c3ExpectedRow] ∧
    c3ExpectedRow.Config = "cfgA" ∧
    c3ExpectedRow.Algorithm = "algo1" ∧
    c3ExpectedRow.Branch_Instructions = some 1000 ∧
    c3ExpectedRow.Branch_Misses = some 50 ∧
    c3ExpectedRow.Misses_pct = some 5 ∧
    c3ExpectedRow.Energy_Joules = some (25 / 2) := by
  refine ⟨?_, ?_, rfl, rfl, rfl, rfl, rfl, rfl⟩
  · with_unfolding_all rfl
  · with_unfolding_all rfl

/-- C5 counterexample: `write_summary_csv` orders the columns after
`filename` alphabetically, not in first-seen order — with record keys seen in
the order `filename`, `Z`, `B` the serialized header is
`[filename, B, Z]`, not `[filename, Z, B]`. -/
theorem c5_column_order_counterexample :
    writeSummaryHeader ["filename", "Z", "B"] = ["filename", "B", "Z"] ∧
    writeSummaryHeader ["filename", "Z", "B"] ≠ ["filename", "Z", "B"] := by
  have h : writeSummaryHeader ["filename", "Z", "B"] = ["filename", "B", "Z"] := by
    with_unfolding_all rfl
  refine ⟨h, ?_⟩
  rw [h]
  decide

/-- C5 amended: the Excel aggregation script orders columns as the preferred
sequence restricted to those present followed by the remaining columns in
first-seen order (in particular `[Z, A, filename]` with preferred
`[filename, A]` serializes as `[filename, A, Z]`), while the CSV summary
writers instead order the remaining columns after `filename` alphabetically. -/
theorem c5_column_order_amended :
    (∀ preferred cols : List String,
       reorderColumns preferred cols =
         preferred.filter (fun c => cols.contains c) ++
           cols.filter (fun c => !preferred.contains c)) ∧
    reorderColumns ["filename", "A"] ["Z", "A", "filename"] = ["filename", "A", "Z"] ∧
    writeSummaryHeader ["filename", "Z", "B"] = ["filename", "B", "Z"] := by
  refine ⟨?_, by decide, by with_unfolding_all rfl⟩
  intro preferred cols
  simp only [reorderColumns]
  congr 1
  apply List.filter_congr
  intro c hc
  by_cases hp : c ∈ preferred
  · simp [List.elem_iff, hp, hc]
  · simp [List.elem_iff, hp]

/-! The `(Config, Algorithm)` sort key is total and transitive, so the stable
sort model applies. -/

instance : IsTotal Row rowLeP := by
  constructor
  intro a b
  rcases lt_trichotomy a.Config b.Config with h | h | h
  · exact Or.inl (Or.inl h)
  · by_cases hba : b.Algorithm < a.Algorithm
    · exact Or.inr (Or.inr ⟨h.symm, lt_asymm hba⟩)
    · exact Or.inl (Or.inr ⟨h, hba⟩)
  · exact Or.inr (Or.inl h)

instance : IsTrans Row rowLeP := by
  constructor
  intro a b c hab hbc
  rcases hab with hab | ⟨hab, hab2⟩
  · rcases hbc with hbc | ⟨hbc, _⟩
    · exact Or.inl (lt_trans hab hbc)
    · exact Or.inl (hab.trans_eq hbc)
  · rcases hbc with hbc | ⟨hbc, hbc2⟩
    · exact Or.inl (hab.trans_lt hbc)
    · refine Or.inr ⟨hab.trans hbc, ?_⟩
      have h1 : a.Algorithm ≤ b.Algorithm := not_lt.mp hab2
      have h2 : b.Algorithm ≤ c.Algorithm := not_lt.mp hbc2
      exact not_lt.mpr (h1.trans h2)

/-- Updating a keyed row preserves the no-duplicate-keys invariant of the
grouped rows. -/
theorem upsertRow_keys_nodup {gs : Groups} {k : String × String} {v : Row}
    (h : (gs.map Prod.fst).Nodup) : ((upsertRow gs k v).map Prod.fst).Nodup := by
  unfold upsertRow
  split
  · rw [List.map_map]
    have heq : (gs.map (Prod.fst ∘ fun p => if p.1 = k then (k, v) else p)) =
        gs.map Prod.fst := by
      apply List.map_congr_left
      intro p _
      by_cases hp : p.1 = k
      · simp [hp]
      · simp [hp]
    rw [heq]
    exact h
  · rename_i hno
    rw [List.map_append]
    refine List.Nodup.append h (List.nodup_singleton k) ?_
    intro x hx hk
    rcases List.mem_singleton.mp hk with rfl
    rw [Option.not_isSome_iff_eq_none, List.lookup_eq_none_iff] at hno
    rcases List.mem_map.mp hx with ⟨p, hp, rfl⟩
    have := hno p hp
    simp at this

/-- Merging a parsed file preserves the no-duplicate-keys invariant. -/
theorem mergeFile_keys_nodup {gs : Groups} {name : String} {d : ParsedFileData}
    (h : (gs.map Prod.fst).Nodup) : ((mergeFile gs name d).map Prod.fst).Nodup := by
  unfold mergeFile
  split
  · exact upsertRow_keys_nodup h
  · exact h

/-- Processing one file preserves the no-duplicate-keys invariant. -/
theorem stepFile_keys_nodup {gs : Groups} {f : String × List String}
    (h : (gs.map Prod.fst).Nodup) : ((stepFile gs f).map Prod.fst).Nodup := by
  unfold stepFile
  split
  · exact mergeFile_keys_nodup h
  · exact h

theorem foldl_stepFile_keys_nodup {gs : Groups} (fs : List (String × List String))
    (h : (gs.map Prod.fst).Nodup) : ((fs.foldl stepFile gs).map Prod.fst).Nodup := by
  induction fs generalizing gs with
  | nil => exact h
  | cons f fs ih => exact ih (stepFile_keys_nodup h)

/-- The whole pattern loop preserves the no-duplicate-keys invariant. -/
theorem foldl_globs_keys_nodup (globs : List String)
    (dir : List (String × List String)) {gs : Groups}
    (h : (gs.map Prod.fst).Nodup) :
    ((globs.foldl
        (fun gs pre => (dir.filter (fun f => globMatch pre f.1)).foldl stepFile gs)
        gs).map Prod.fst).Nodup := by
  induction globs generalizing gs with
  | nil => exact h
  | cons g globs ih => exact ih (foldl_stepFile_keys_nodup _ h)

/-- C6: the aggregator's sort is by the `(Config, Algorithm)` key ascending
and stable — the output is sorted under the key order, is a permutation of the
accumulated rows, and any key-ordered pair keeps its arrival order; moreover
`grouped_data` never holds two rows with the same key, so ties cannot arise at
all in an actual run. -/
theorem c6_sort_stable (rows : List Row) :
    List.Sorted rowLeP (sortRows rows) ∧
    List.Perm (sortRows rows) rows ∧
    (∀ a b : Row, rowLeP a b → List.Sublist [a, b] rows →
       List.Sublist [a, b] (sortRows rows)) ∧
    (∀ dir : List (String × List String), ((mainGroups dir).map Prod.fst).Nodup) := by
  refine ⟨List.sorted_insertionSort rowLeP rows, List.perm_insertionSort rowLeP rows,
    ?_, ?_⟩
  · intro a b hab hsub
    exact List.pair_sublist_insertionSort hab hsub
  · intro dir
    unfold mainGroups
    exact foldl_globs_keys_nodup extrasGlobs dir (by simp)

/-- C6 witness: two equal-key rows keep their arrival order through the sort,
and a concrete run groups with duplicate-free keys. -/
theorem c6_sort_stable_witness :
    List.Sublist [c6RowA, c6RowB] (sortRows [c6RowA, c6RowB]) ∧
    ((mainGroups c3Dir).map Prod.fst).Nodup :=
  ⟨(c6_sort_stable [c6RowA, c6RowB]).2.2.1 c6RowA c6RowB
      (Or.inr ⟨rfl, lt_irrefl _⟩) (List.Sublist.refl _),
   (c6_sort_stable []).2.2.2 c3Dir⟩

